import Mathlib

/-!
Verification of the kpt-config-sync field-ownership model and parse-apply-watch
control loop, shallowly embedded from the Go sources.

Go strings are modelled as lists of characters (`Str`); Go byte-wise
lexicographic comparison agrees with code-point comparison because UTF-8
preserves lexicographic order.  Go `interface{}` JSON documents are modelled by
the inductive type `GoVal`; a Go `nil` interface value (which a type switch
sends to the `default` branch) is `GoVal.null`, while a nil map is
indistinguishable from the empty map in a `range` loop and is therefore
`GoVal.obj []`.
-/

namespace ConfigSync

/-- Go strings, modelled as lists of characters. -/
abbrev Str := List Char

/-- Convenience conversion from Lean string literals. -/
def str (s : String) : Str := s.data

/-- A generic JSON-like document, the model of Go `interface{}` values produced
by `json.Unmarshal` / `unstructured.Unstructured`. -/
inductive GoVal where
  | null
  | bool (b : Bool)
  | num (n : Int)
  | str (s : Str)
  | arr (elems : List GoVal)
  | obj (entries : List (Str × GoVal))

instance : Inhabited GoVal := ⟨.null⟩

/-! ### pkg/declared/fieldset.go -/

/-- `EscapeField` from fieldset.go: RFC 6901 escaping via
`strings.NewReplacer("~", "~0", "/", "~1")`. -/
def EscapeField : Str → Str
  | [] => []
  | '~' :: rest => '~' :: '0' :: EscapeField rest
  | '/' :: rest => '~' :: '1' :: EscapeField rest
  | c :: rest => c :: EscapeField rest

/-- `UnescapeField` from fieldset.go: the reverse replacer
`strings.NewReplacer("~0", "~", "~1", "/")`. -/
def UnescapeField : Str → Str
  | '~' :: '0' :: rest => '~' :: UnescapeField rest
  | '~' :: '1' :: rest => '/' :: UnescapeField rest
  | c :: rest => c :: UnescapeField rest
  | [] => []

/-- `newPath` from fieldset.go: append a slash unless the accumulated path is
the bare root `"/"`, then append the escaped key. -/
def newPath (pfx curPath : Str) : Str :=
  (if pfx.length != 1 then pfx ++ ['/'] else pfx) ++ EscapeField curPath

mutual

/-- `traverseCurrentNode` from fieldset.go: descend into maps; every other
node (scalars, `nil`, and lists) is recorded as a leaf at the accumulated
path.  The Go version inserts into a shared set; here the paths are collected
in a list and deduplicated by the caller. -/
def traverseCurrentNode : GoVal → Str → List Str
  | .obj entries, ancestorPath => traverseEntries entries ancestorPath
  | _, ancestorPath => [ancestorPath]

/-- The `for k, v := range val` loop inside `traverseCurrentNode`. -/
def traverseEntries : List (Str × GoVal) → Str → List Str
  | [], _ => []
  | (k, v) :: rest, ancestorPath =>
      traverseCurrentNode v (newPath ancestorPath k) ++ traverseEntries rest ancestorPath

end

/-- Byte-wise ascending comparison used by `SortFieldSet`
(`strings.Compare(set[i], set[j]) < 0` under `sort.Slice`). -/
def pathLe (a b : Str) : Prop := a ≤ b

instance : DecidableRel pathLe := fun a b => inferInstanceAs (Decidable (a ≤ b))

instance : IsTotal Str pathLe := ⟨fun a b => le_total a b⟩

instance : IsTrans Str pathLe := ⟨fun _ _ _ h h2 => le_trans h h2⟩

instance : IsAntisymm Str pathLe := ⟨fun _ _ h h2 => le_antisymm h h2⟩

/-- `SortFieldSet` from fieldset.go: sort ascending by byte-wise string
comparison.  `sort.Slice` is modelled by insertion sort; on the duplicate-free
sets it is applied to, any sorting algorithm produces this unique result. -/
def SortFieldSet (set : List Str) : List Str := set.insertionSort pathLe

/-- `toFieldSet` from fieldset.go: collect every leaf path into a set, delete
the ignored paths, and return the sorted result. -/
def toFieldSet (node : GoVal) (ignoreList : List Str) : List Str :=
  SortFieldSet (((traverseCurrentNode node ['/']).dedup).filter
    (fun p => !ignoreList.contains p))

/-- The field separator `", "` from fieldset.go. -/
def fieldSeparator : Str := [',', ' ']

/-- `PathSetToString` from fieldset.go: `strings.Join(set, ", ")`. -/
def PathSetToString : List Str → Str
  | [] => []
  | [x] => x
  | x :: xs => x ++ ',' :: ' ' :: PathSetToString xs

/-- Worker for `PathSetFromString`, scanning left to right for the first
occurrence of `", "` exactly as Go `strings.Split` does. -/
def splitSepAux : Str → Str → List Str
  | [], acc => [acc.reverse]
  | ',' :: ' ' :: rest, acc => acc.reverse :: splitSepAux rest []
  | c :: rest, acc => splitSepAux rest (c :: acc)

/-- `PathSetFromString` from fieldset.go: `strings.Split(s, ", ")`.
Note `strings.Split("", sep) = [""]`. -/
def PathSetFromString (s : Str) : List Str := splitSepAux s []

/-- Whether a path contains the two-character separator `", "` as a substring.
`EscapeField` does not escape commas or spaces, so map keys can put the
separator inside a path. -/
def containsFieldSeparator : Str → Bool
  | ',' :: ' ' :: _ => true
  | _ :: rest => containsFieldSeparator rest
  | [] => false

/-! ### Support lemmas for the `", "` join/split round trip -/

/-- Whether a string begins with the separator `", "`. -/
def sepStart : Str → Bool
  | c1 :: c2 :: _ => c1 == ',' && c2 == ' '
  | _ => false

theorem containsFieldSeparator_tail {c : Char} {xs : Str}
    (h : containsFieldSeparator (c :: xs) = false) :
    containsFieldSeparator xs = false := by
  rw [containsFieldSeparator.eq_def] at h
  split at h
  · exact absurd h (by simp)
  · rename_i heq; injection heq with h1 h2; subst h2; exact h
  · rename_i heq; exact absurd heq (by simp)

theorem sepStart_false_of_no_sep {c : Char} {xs : Str}
    (h : containsFieldSeparator (c :: xs) = false) :
    sepStart (c :: xs) = false := by
  cases xs with
  | nil => rfl
  | cons c2 rest =>
    show (c == ',' && c2 == ' ') = false
    cases hc : c == ',' with
    | false => simp [hc]
    | true =>
      cases hc2 : c2 == ' ' with
      | false => simp [hc2]
      | true =>
        exfalso
        have e1 : c = ',' := by simpa using hc
        have e2 : c2 = ' ' := by simpa using hc2
        subst e1; subst e2
        have : containsFieldSeparator (',' :: ' ' :: rest) = true := rfl
        rw [this] at h
        exact absurd h (by simp)

theorem splitSepAux_step {c : Char} {xs acc : Str}
    (h : sepStart (c :: xs) = false) :
    splitSepAux (c :: xs) acc = splitSepAux xs (c :: acc) := by
  rw [splitSepAux.eq_def]
  split
  · rename_i heq; exact absurd heq (by simp)
  · rename_i heq
    injection heq with e1 e2
    subst e1; subst e2
    simp [sepStart] at h
  · rename_i heq
    injection heq with e1 e2
    subst e1; subst e2
    rfl

theorem sepStart_cons_append_sep {c : Char} (xs rest : Str)
    (h : sepStart (c :: xs) = false) :
    sepStart (c :: (xs ++ ',' :: ' ' :: rest)) = false := by
  cases xs with
  | nil => simp [sepStart]
  | cons c2 xs2 => exact h

theorem splitSepAux_no_sep {x : Str} (acc : Str)
    (h : containsFieldSeparator x = false) :
    splitSepAux x acc = [acc.reverse ++ x] := by
  induction x generalizing acc with
  | nil => simp [splitSepAux]
  | cons c xs ih =>
    rw [splitSepAux_step (sepStart_false_of_no_sep h),
      ih (c :: acc) (containsFieldSeparator_tail h)]
    simp

theorem splitSepAux_append_sep {x : Str} (rest acc : Str)
    (h : containsFieldSeparator x = false) :
    splitSepAux (x ++ ',' :: ' ' :: rest) acc =
      (acc.reverse ++ x) :: splitSepAux rest [] := by
  induction x generalizing acc with
  | nil => simp [splitSepAux]
  | cons c xs ih =>
    rw [List.cons_append,
      splitSepAux_step (sepStart_cons_append_sep xs rest (sepStart_false_of_no_sep h)),
      ih (c :: acc) (containsFieldSeparator_tail h)]
    simp

/-- Join-then-split round trip for any non-empty list of separator-free
strings. -/
theorem pathSet_join_split_roundTrip :
    ∀ (l : List Str), l ≠ [] →
      (∀ p ∈ l, containsFieldSeparator p = false) →
      PathSetFromString (PathSetToString l) = l
  | [], hne, _ => absurd rfl hne
  | [x], _, hall => by
      have hx : containsFieldSeparator x = false := hall x (by simp)
      show splitSepAux x [] = [x]
      rw [splitSepAux_no_sep [] hx]
      simp
  | x :: y :: ys, _, hall => by
      have hx : containsFieldSeparator x = false := hall x (by simp)
      have ih := pathSet_join_split_roundTrip (y :: ys) (by simp)
        (fun p hp => hall p (by simp [hp]))
      show splitSepAux (x ++ ',' :: ' ' :: PathSetToString (y :: ys)) [] = x :: y :: ys
      rw [splitSepAux_append_sep _ [] hx]
      simp only [List.reverse_nil, List.nil_append]
      exact congrArg (x :: ·) ih

/-! ### Claim C1: serialize/parse round trip of computed field path sets -/

/-- Claim C1 (counterexample): for the empty document the computed field path
set is empty, `PathSetToString` yields the empty string, and
`PathSetFromString` of the empty string is the singleton containing the empty
string — not the empty set.  So the round trip fails for the empty set, and in
particular fails for some document and ignore-list. -/
theorem pathSetRoundTrip_counterexample :
    toFieldSet (GoVal.obj []) [] = [] ∧
    PathSetFromString (PathSetToString (toFieldSet (GoVal.obj []) [])) = [[]] ∧
    PathSetFromString (PathSetToString (toFieldSet (GoVal.obj []) [])) ≠
      toFieldSet (GoVal.obj []) [] := by
  refine ⟨rfl, rfl, by decide⟩

/-- Claim C1 (amended): for every nested document `D` and ignore-list `I`,
if the computed field path set is non-empty and none of its paths contains the
separator substring `", "` (which can only come from a map key, since `/` and
`~` are escaped but `,` and space are not), then serializing the set with
`PathSetToString` and parsing it back with `PathSetFromString` yields exactly
the same set. -/
theorem pathSetRoundTrip (D : GoVal) (I : List Str)
    (hne : toFieldSet D I ≠ [])
    (hsep : ∀ p ∈ toFieldSet D I, containsFieldSeparator p = false) :
    PathSetFromString (PathSetToString (toFieldSet D I)) = toFieldSet D I :=
  pathSet_join_split_roundTrip (toFieldSet D I) hne hsep

/-- Witness for the amended Claim C1 at a concrete document. -/
theorem pathSetRoundTrip_witness :
    PathSetFromString (PathSetToString
        (toFieldSet (GoVal.obj [(str "a", .num 1), (str "b", .arr [])]) [])) =
      toFieldSet (GoVal.obj [(str "a", .num 1), (str "b", .arr [])]) [] :=
  pathSetRoundTrip _ [] (by decide) (by decide)

/-! ### Claim C4: field path set of a nil/missing document -/

/-- Claim C4 (counterexample): `toFieldSet` of the untyped nil interface value
(the result of passing literal `nil` to the Go function, which a type switch
sends to the default leaf branch) is the singleton set containing the root
path, not the empty set. -/
theorem toFieldSet_nilInterface_counterexample :
    toFieldSet GoVal.null [] = [['/']] ∧ toFieldSet GoVal.null [] ≠ [] :=
  ⟨rfl, by decide⟩

/-- Claim C4 (amended): a missing document in the form of a nil (or empty) map
— the only shape produced by `UnstructuredFieldSet` on an object without
content, since a nil Go map ranges like an empty one — yields the empty path
set for every ignore-list, and no error is possible; the untyped nil interface
value itself is instead treated as a scalar leaf and yields the single root
path `"/"` (removed only when `"/"` is ignored). -/
theorem toFieldSet_nil_document (I : List Str) :
    toFieldSet (GoVal.obj []) I = [] ∧
    toFieldSet GoVal.null I = (if I.contains ['/'] then [] else [['/']]) := by
  constructor
  · rfl
  · show SortFieldSet ((List.dedup [['/']]).filter (fun p => !I.contains p)) = _
    rw [List.dedup_cons_of_not_mem (by simp), List.dedup_nil]
    cases h : I.contains ['/'] with
    | false =>
      rw [List.filter_cons, List.filter_nil, h]
      simp [SortFieldSet, List.insertionSort, List.orderedInsert]
    | true =>
      rw [List.filter_cons, List.filter_nil, h]
      simp [SortFieldSet, List.insertionSort]

/-! ### Claim C5: empty-map versus empty-list asymmetry -/

/-- Claim C5: an empty map value contributes no path (the traversal of an
empty entry list is empty) while an empty (indeed any) list value contributes
exactly the path of its own location; in particular
`toFieldSet {"a": {}, "b": 1} = {"/b"}` and
`toFieldSet {"a": [], "b": 1} = {"/a", "/b"}`. -/
theorem emptyMap_emptyList_asymmetry :
    (∀ p : Str, traverseCurrentNode (GoVal.obj []) p = []) ∧
    (∀ (p : Str) (elems : List GoVal),
      traverseCurrentNode (GoVal.arr elems) p = [p]) ∧
    toFieldSet (GoVal.obj [(str "a", .obj []), (str "b", .num 1)]) [] =
      [str "/b"] ∧
    toFieldSet (GoVal.obj [(str "a", .arr []), (str "b", .num 1)]) [] =
      [str "/a", str "/b"] :=
  ⟨fun _ => rfl, fun _ _ => rfl, by decide, by decide⟩

/-! ### pkg/webhook/fields.go -/

/-- `strings.Split(path, "/")` worker. -/
def splitSlashAux : Str → Str → List Str
  | [], acc => [acc.reverse]
  | '/' :: rest, acc => acc.reverse :: splitSlashAux rest []
  | c :: rest, acc => splitSlashAux rest (c :: acc)

/-- `strings.Split(path, "/")`. -/
def splitSlash (s : Str) : List Str := splitSlashAux s []

/-- `strings.Join(l, "/")`. -/
def joinSlash : List Str → Str
  | [] => []
  | [x] => x
  | x :: xs => x ++ '/' :: joinSlash xs

/-- Value of a non-empty all-digit string. -/
def digitsToNat (s : Str) : Nat :=
  s.foldl (fun acc c => acc * 10 + (c.toNat - 48)) 0

/-- Whether a string is non-empty and all ASCII digits. -/
def isAllDigits (s : Str) : Bool := !s.isEmpty && s.all (fun c => c.isDigit)

/-- Whether `strconv.Atoi` succeeds: optional sign, then one or more digits,
and the value fits a 64-bit int (`Atoi` reports a range error otherwise). -/
def goAtoiOk : Str → Bool
  | '+' :: rest => isAllDigits rest && digitsToNat rest ≤ 2 ^ 63 - 1
  | '-' :: rest => isAllDigits rest && digitsToNat rest ≤ 2 ^ 63
  | s => isAllDigits s && digitsToNat s ≤ 2 ^ 63 - 1

/-- A path component that `stripListIndex` treats as a list index: the append
sentinel `-`, or anything `strconv.Atoi` accepts. -/
def isListIndexComponent (p : Str) : Bool := p == ['-'] || goAtoiOk p

/-- The `for _, p := range paths` loop of `stripListIndex`: `acc` holds the
components kept so far, in reverse.  Returns `some` of the joined prefix when
a list-index component is hit, `none` when the loop runs out. -/
def stripListIndexLoop : List Str → List Str → Option Str
  | [], _ => none
  | p :: rest, acc =>
      if isListIndexComponent p then some (joinSlash acc.reverse)
      else stripListIndexLoop rest (p :: acc)

/-- `stripListIndex` from fields.go: split on `/`, cut at the first component
that is `-` or parses as an integer, rejoin; return the path unchanged when no
such component exists. -/
def stripListIndex (path : Str) : Str :=
  match stripListIndexLoop (splitSlash path) [] with
  | some r => r
  | none => path

theorem stripListIndexLoop_eq :
    ∀ (comps acc : List Str),
      stripListIndexLoop comps acc =
        (if comps.any isListIndexComponent then
          some (joinSlash (acc.reverse ++
            comps.takeWhile (fun p => !isListIndexComponent p)))
        else none)
  | [], acc => by simp [stripListIndexLoop]
  | p :: rest, acc => by
      rw [stripListIndexLoop]
      cases hp : isListIndexComponent p with
      | true => simp [hp, List.takeWhile_cons, List.any_cons]
      | false =>
        rw [stripListIndexLoop_eq rest (p :: acc)]
        simp [hp, List.takeWhile_cons, List.any_cons]

/-! ### Claim C6: stripListIndex semantics -/

/-- Claim C6: `stripListIndex` removes the first path component that parses as
an integer or equals `-`, together with every component after it (the result
is the `/`-join of the components before it), and returns any path with no
such component unchanged; in particular the path "slash a slash 0 slash b"
strips to "slash a", the path "slash a slash dash" (the append sentinel)
strips to "slash a", and the path "slash a slash b" is unchanged. -/
theorem stripListIndex_spec :
    (∀ path : Str,
      stripListIndex path =
        (if (splitSlash path).any isListIndexComponent then
          joinSlash ((splitSlash path).takeWhile (fun p => !isListIndexComponent p))
        else path)) ∧
    stripListIndex (str "/a/0/b") = str "/a" ∧
    stripListIndex (str "/a/-") = str "/a" ∧
    stripListIndex (str "/a/b") = str "/a/b" := by
  refine ⟨fun path => ?_, by decide, by decide, by decide⟩
  rw [stripListIndex, stripListIndexLoop_eq]
  cases h : (splitSlash path).any isListIndexComponent with
  | true => simp [h]
  | false => simp [h]

/-! ### Objects and annotations -/

/-- The declared-fields annotation key.
Modelled from the spec: the constant `metadata.DeclaredFieldsKey` lives in
`pkg/metadata`, which is not part of the sources; the spec describes it as "a
reserved annotation key on every managed object".  Its exact spelling is
irrelevant to every claim. -/
def DeclaredFieldsKey : Str := str "metadata.gke.io/declared-fields"

/-- Look up a key in a Go `map[string]string`, modelled as an association
list (first match wins; callers maintain key uniqueness). -/
def lookupAnnot : List (Str × Str) → Str → Option Str
  | [], _ => none
  | (k, v) :: rest, key => if k == key then some v else lookupAnnot rest key

/-- Insert or replace a key in a Go `map[string]string` modelled as an
association list. -/
def setAnnotValue : List (Str × Str) → Str → Str → List (Str × Str)
  | [], key, v => [(key, v)]
  | (k, w) :: rest, key, v =>
      if k == key then (k, v) :: rest else (k, w) :: setAnnotValue rest key v

/-- A managed object, as far as the verified components inspect it: a group
kind, its unstructured content, and its metadata annotations.  (In Go the
annotations live inside the content; they are split out here because the
verified code never recomputes a field set after writing the annotation.) -/
structure KObject where
  kind : Str
  content : GoVal
  annots : List (Str × Str)

/-! ### Claim C7: webhook DeclaredFields -/

/-- `DeclaredFields` from fields.go: read the declared-fields annotation,
error when it is absent, and parse it with `PathSetFromString` otherwise. -/
def webhookDeclaredFields (obj : KObject) : Except Str (List Str) :=
  match lookupAnnot obj.annots DeclaredFieldsKey with
  | none => .error (str "declared-fields annotation is missing")
  | some decls => .ok (PathSetFromString decls)

/-- Claim C7: `DeclaredFields` errors exactly when the declared-fields
annotation is absent, and otherwise returns the annotation value parsed as a
path set. -/
theorem webhookDeclaredFields_spec (obj : KObject) :
    ((∃ e, webhookDeclaredFields obj = .error e) ↔
      lookupAnnot obj.annots DeclaredFieldsKey = none) ∧
    (∀ v, lookupAnnot obj.annots DeclaredFieldsKey = some v →
      webhookDeclaredFields obj = .ok (PathSetFromString v)) := by
  cases h : lookupAnnot obj.annots DeclaredFieldsKey with
  | none =>
    constructor
    · simp [webhookDeclaredFields, h]
    · intro v hv
      simp at hv
  | some v =>
    constructor
    · simp [webhookDeclaredFields, h]
    · intro w hw
      have hvw : v = w := by injection hw
      subst hvw
      simp [webhookDeclaredFields, h]

/-- Witness for Claim C7 at a concrete object carrying the annotation. -/
theorem webhookDeclaredFields_witness :
    webhookDeclaredFields
        ⟨str "Role", GoVal.obj [], [(DeclaredFieldsKey, str "/a, /b")]⟩ =
      .ok [str "/a", str "/b"] :=
  (webhookDeclaredFields_spec
    ⟨str "Role", GoVal.obj [], [(DeclaredFieldsKey, str "/a, /b")]⟩).2
    (str "/a, /b") rfl

/-! ### Claim C2: FieldDiff reduction of a structural patch -/

mutual

/-- Structural value equality on documents (Go `reflect.DeepEqual` on the
generic tree, as used by the structural-patch comparison). -/
def goValBeq : GoVal → GoVal → Bool
  | .null, .null => true
  | .bool a, .bool b => a == b
  | .num a, .num b => a == b
  | .str a, .str b => a == b
  | .arr a, .arr b => goListBeq a b
  | .obj a, .obj b => goEntriesBeq a b
  | _, _ => false

/-- Element-wise equality of document lists. -/
def goListBeq : List GoVal → List GoVal → Bool
  | [], [] => true
  | a :: as, b :: bs => goValBeq a b && goListBeq as bs
  | _, _ => false

/-- Entry-wise equality of document maps (order-sensitive; the modelled
documents keep their keys in marshalling order). -/
def goEntriesBeq : List (Str × GoVal) → List (Str × GoVal) → Bool
  | [], [] => true
  | (k, v) :: as, (k2, v2) :: bs => k == k2 && goValBeq v v2 && goEntriesBeq as bs
  | _, _ => false

end

/-- Look up a key in a document map. -/
def lookupVal : List (Str × GoVal) → Str → Option GoVal
  | [], _ => none
  | (k, v) :: rest, key => if k == key then some v else lookupVal rest key

/-- JSON Patch operation types produced by the `jsondiff` library. -/
inductive OpType where
  | add
  | replace
  | remove
  | move
  | copy
  | test
deriving DecidableEq

/-- A JSON Patch operation (`jsondiff.Operation`): type, JSON-Pointer path,
new value, and old value (populated for remove/replace). -/
structure Operation where
  type : OpType
  path : Str
  value : GoVal
  oldValue : GoVal

/-- The contribution of one patch operation to the `FieldDiff` path set
(the `switch op.Type` body in fields.go): add/replace contribute the stripped
path; a remove whose old value is a map contributes the stripped `path/key`
for each removed key; any other remove contributes the stripped path; other
operation types contribute nothing. -/
def opPaths (op : Operation) : List Str :=
  match op.type with
  | .add | .replace => [stripListIndex op.path]
  | .remove =>
    match op.oldValue with
    | .obj entries => entries.map (fun kv => stripListIndex (op.path ++ '/' :: kv.1))
    | _ => [stripListIndex op.path]
  | _ => []

/-- `FieldDiff` from fields.go, applied to an already-computed structural
patch: collect every operation contribution into a set and sort it. -/
def FieldDiff (patch : List Operation) : List Str :=
  SortFieldSet ((patch.flatMap opPaths).dedup)

/-- Modelled from the spec: add operations for keys present only in the new
map. -/
def jsondiffAdds (oldE newE : List (Str × GoVal)) (path : Str) :
    List Operation :=
  match newE with
  | [] => []
  | (k, w) :: rest =>
      (match lookupVal oldE k with
       | none => [{type := .add, path := path ++ '/' :: EscapeField k,
                   value := w, oldValue := .null}]
       | some _ => []) ++ jsondiffAdds oldE rest path

mutual

/-- Modelled from the spec: the external `jsondiff.Compare` library call,
described in §4.3 as computing "a structural patch between two versions of the
same object (add/replace/remove operations over the generic tree)".  Maps are
compared key by key (removes and changes for old keys, adds for new keys);
every other node, including arrays, is compared as a whole and yields a
single replace when unequal.  The verified examples contain no array
differences, where this model and the library agree. -/
def jsondiffCompare (old new : GoVal) (path : Str) : List Operation :=
  match old with
  | .obj oldE =>
    match new with
    | .obj newE => jsondiffOldEntries oldE newE path ++ jsondiffAdds oldE newE path
    | n => [{type := .replace, path := path, value := n, oldValue := .obj oldE}]
  | o =>
      if goValBeq o new then []
      else [{type := .replace, path := path, value := new, oldValue := o}]

/-- Modelled from the spec: removes and changes for the keys of the old map. -/
def jsondiffOldEntries (oldE newE : List (Str × GoVal)) (path : Str) :
    List Operation :=
  match oldE with
  | [] => []
  | (k, v) :: rest =>
      (match lookupVal newE k with
       | none => [{type := .remove, path := path ++ '/' :: EscapeField k,
                   value := .null, oldValue := v}]
       | some w => jsondiffCompare v w (path ++ '/' :: EscapeField k)) ++
      jsondiffOldEntries rest newE path

end

/-- The Role document used by the spec's diff-granularity example, with the
given labels map (or no labels key at all, matching how a struct-typed object
with `omitempty` marshals an empty label map). -/
def roleDoc (labels : Option (List (Str × GoVal))) : GoVal :=
  .obj [(str "apiVersion", .str (str "rbac.authorization.k8s.io/v1")),
        (str "kind", .str (str "Role")),
        (str "metadata", .obj
          ([(str "name", .str (str "hello")),
            (str "namespace", .str (str "world"))] ++
           (match labels with
            | some ls => [(str "labels", .obj ls)]
            | none => []))),
        (str "rules", .arr [.obj
          [(str "apiGroups", .arr [.str []]),
           (str "resources", .arr [.str (str "namespaces")]),
           (str "verbs", .arr [.str (str "get"), .str (str "list")])]])]

/-- Old labels: foo=bar, this=that. -/
def oldRole : GoVal :=
  roleDoc (some [(str "foo", .str (str "bar")), (str "this", .str (str "that"))])

theorem opPaths_mem (op : Operation) (q : Str) :
    q ∈ opPaths op ↔
      (((op.type = .add ∨ op.type = .replace) ∧ q = stripListIndex op.path) ∨
       (op.type = .remove ∧ (∃ entries, op.oldValue = .obj entries ∧
         ∃ kv ∈ entries, q = stripListIndex (op.path ++ '/' :: kv.1))) ∨
       (op.type = .remove ∧ (∀ entries, op.oldValue ≠ .obj entries) ∧
         q = stripListIndex op.path)) := by
  obtain ⟨t, p, v, ov⟩ := op
  cases t <;> cases ov <;> simp [opPaths, eq_comm]

/-- Claim C2 (counterexample): all contributed paths pass through
`stripListIndex`, which the claim omits.  A remove of a scalar at the path
"slash a slash 0" contributes "slash a", not the path itself; and a remove of
a map at "slash a" whose only key is "0" likewise contributes "slash a"
rather than one path per removed key. -/
theorem FieldDiff_counterexample :
    FieldDiff [{type := .remove, path := str "/a/0", value := .null,
                oldValue := .num 1}] = [str "/a"] ∧
    FieldDiff [{type := .remove, path := str "/a/0", value := .null,
                oldValue := .num 1}] ≠ [str "/a/0"] ∧
    FieldDiff [{type := .remove, path := str "/a", value := .null,
                oldValue := .obj [(str "0", .num 1)]}] = [str "/a"] ∧
    FieldDiff [{type := .remove, path := str "/a", value := .null,
                oldValue := .obj [(str "0", .num 1)]}] ≠ [str "/a/0"] := by
  refine ⟨by decide, by decide, by decide, by decide⟩

/-- Claim C2 (amended): `FieldDiff` reduces a structural patch to the sorted
set of affected paths where an add or replace at `P` contributes
`stripListIndex P`; a remove whose removed value is a map at `P` contributes
`stripListIndex (P/key)` for each removed key — which is `P/key` itself
whenever no integer or dash component is involved — and a remove of a scalar
contributes `stripListIndex P`; in particular, for old labels
foo=bar,this=that and new labels foo=bar the diff is exactly
{"slash metadata slash labels slash this"}, and for new labels empty (whether
the labels key disappears, yielding one map-remove expanded per key, or stays
as an empty map, yielding per-key scalar removes) the diff is
{…labels slash foo, …labels slash this}. -/
theorem FieldDiff_spec :
    (∀ (patch : List Operation) (q : Str),
      q ∈ FieldDiff patch ↔
        ∃ op ∈ patch,
          (((op.type = .add ∨ op.type = .replace) ∧ q = stripListIndex op.path) ∨
           (op.type = .remove ∧ (∃ entries, op.oldValue = .obj entries ∧
             ∃ kv ∈ entries, q = stripListIndex (op.path ++ '/' :: kv.1))) ∨
           (op.type = .remove ∧ (∀ entries, op.oldValue ≠ .obj entries) ∧
             q = stripListIndex op.path))) ∧
    FieldDiff (jsondiffCompare oldRole
        (roleDoc (some [(str "foo", .str (str "bar"))])) []) =
      [str "/metadata/labels/this"] ∧
    FieldDiff (jsondiffCompare oldRole (roleDoc none) []) =
      [str "/metadata/labels/foo", str "/metadata/labels/this"] ∧
    FieldDiff (jsondiffCompare oldRole (roleDoc (some [])) []) =
      [str "/metadata/labels/foo", str "/metadata/labels/this"] := by
  refine ⟨fun patch q => ?_, by decide, by decide, by decide⟩
  rw [FieldDiff, SortFieldSet, List.mem_insertionSort, List.mem_dedup,
    List.mem_flatMap]
  constructor
  · rintro ⟨op, hop, hq⟩
    exact ⟨op, hop, (opPaths_mem op q).1 hq⟩
  · rintro ⟨op, hop, hq⟩
    exact ⟨op, hop, (opPaths_mem op q).2 hq⟩

/-! ### pkg/validate/raw/hydrate/declared_field_hydrator.go

The hydrator works on `*unstructured.Unstructured` objects, whose content is
the Go map `u.Object`; it is modelled here as the entry list of a document
map.  The `unstructured.NestedFieldNoCopy` / `SetNestedSlice` helpers from the
apimachinery library are embedded below; Go mutates nested maps in place,
which the functional model renders by threading updated documents.  On error
paths Go leaves some in-place mutations behind that this model drops; no
verified property observes the content of an object whose encoding failed
(such objects get the empty annotation string). -/

/-- Insert or replace a key in a document map. -/
def setEntry : List (Str × GoVal) → Str → GoVal → List (Str × GoVal)
  | [], k, v => [(k, v)]
  | (k2, w) :: rest, k, v =>
      if k2 == k then (k2, v) :: rest else (k2, w) :: setEntry rest k v

/-- `unstructured.NestedFieldNoCopy`: walk nested maps along `fields`.
`.ok (some v)` is found, `.ok none` is not-found (missing key or nil value on
the way), `.error` is the accessor error for a non-map intermediate value. -/
def nestedFieldAux : GoVal → List Str → Except Unit (Option GoVal)
  | val, [] => .ok (some val)
  | .null, _ :: _ => .ok none
  | .obj entries, field :: rest =>
      (match lookupVal entries field with
       | none => .ok none
       | some v => nestedFieldAux v rest)
  | _, _ :: _ => .error ()

/-- `unstructured.SetNestedField` (and `SetNestedSlice`): walk or create
nested maps along `fields` and set the final key; error when an intermediate
value exists but is not a map. -/
def setNestedField : List (Str × GoVal) → GoVal → List Str → Except Unit (List (Str × GoVal))
  | entries, value, [field] => .ok (setEntry entries field value)
  | entries, value, field :: rest2 :: rest =>
      (match lookupVal entries field with
       | some (.obj sub) =>
          (setNestedField sub value (rest2 :: rest)).map
            (fun sub2 => setEntry entries field (.obj sub2))
       | some _ => .error ()
       | none =>
          (setNestedField [] value (rest2 :: rest)).map
            (fun sub2 => setEntry entries field (.obj sub2)))
  | entries, _, [] => .ok entries

/-- `setDefaultProtocolInPort`: error for a non-map port; otherwise fill in
`protocol: TCP` when the key is missing. -/
def setDefaultProtocolInPort : GoVal → Except Unit GoVal
  | .obj entries =>
      .ok (.obj (if (lookupVal entries (str "protocol")).isSome then entries
                 else entries ++ [(str "protocol", .str (str "TCP"))]))
  | _ => .error ()

/-- `setDefaultProtocolInPorts`: process every port, counting errors. -/
def setDefaultProtocolInPorts : List GoVal → List GoVal × Nat
  | [] => ([], 0)
  | p :: rest =>
      let one := match setDefaultProtocolInPort p with
                 | .ok q => (q, 0)
                 | .error _ => (p, 1)
      let more := setDefaultProtocolInPorts rest
      (one.1 :: more.1, one.2 + more.2)

/-- `setDefaultProtocolInNestedPorts`: read the ports slice at `fields` (no
error when absent or nil), default each port's protocol, write the slice
back. -/
def setDefaultProtocolInNestedPorts (obj : List (Str × GoVal)) (fields : List Str) :
    List (Str × GoVal) × Nat :=
  match nestedFieldAux (.obj obj) fields with
  | .error _ => (obj, 1)
  | .ok none => (obj, 0)
  | .ok (some .null) => (obj, 0)
  | .ok (some (.arr ports)) =>
      let done := setDefaultProtocolInPorts ports
      if done.2 != 0 then (obj, done.2)
      else
        match setNestedField obj (.arr done.1) fields with
        | .ok obj2 => (obj2, 0)
        | .error _ => (obj, 1)
  | .ok (some _) => (obj, 1)

/-- `setDefaultProtocolInContainer`: error for a non-map container; otherwise
default the protocols in its `ports` list. -/
def setDefaultProtocolInContainer : GoVal → GoVal × Nat
  | .obj entries =>
      let done := setDefaultProtocolInNestedPorts entries [str "ports"]
      (.obj done.1, done.2)
  | c => (c, 1)

/-- `setDefaultProtocolInContainers`: process every container, counting
errors. -/
def setDefaultProtocolInContainers : List GoVal → List GoVal × Nat
  | [] => ([], 0)
  | c :: rest =>
      let one := setDefaultProtocolInContainer c
      let more := setDefaultProtocolInContainers rest
      (one.1 :: more.1, one.2 + more.2)

/-- `updateDefaultProtocolInContainers`: default the containers and, only when
error-free, write the updated slice back at `field`. -/
def updateDefaultProtocolInContainers (podSpec : List (Str × GoVal))
    (containers : List GoVal) (field : Str) : List (Str × GoVal) × Nat :=
  let done := setDefaultProtocolInContainers containers
  if done.2 != 0 then (podSpec, done.2)
  else
    match setNestedField podSpec (.arr done.1) [field] with
    | .ok ps2 => (ps2, 0)
    | .error _ => (podSpec, 1)

/-- `setDefaultProtocolInPodSpec`: handle `initContainers` (tolerating a nil
value) and `containers` (a present non-slice value, nil included, errors). -/
def setDefaultProtocolInPodSpec (podSpec : List (Str × GoVal)) :
    List (Str × GoVal) × Nat :=
  let stepInit :=
    match nestedFieldAux (.obj podSpec) [str "initContainers"] with
    | .error _ => (podSpec, 1)
    | .ok none => (podSpec, 0)
    | .ok (some .null) => (podSpec, 0)
    | .ok (some (.arr ics)) =>
        updateDefaultProtocolInContainers podSpec ics (str "initContainers")
    | .ok (some _) => (podSpec, 1)
  let stepMain :=
    match nestedFieldAux (.obj stepInit.1) [str "containers"] with
    | .error _ => (stepInit.1, 1)
    | .ok none => (stepInit.1, 0)
    | .ok (some (.arr cs)) =>
        updateDefaultProtocolInContainers stepInit.1 cs (str "containers")
    | .ok (some _) => (stepInit.1, 1)
  (stepMain.1, stepInit.2 + stepMain.2)

/-- `setDefaultProtocolInNestedPodSpec`: the pod spec at `fields` is required
(missing, nil, or non-map values are errors). -/
def setDefaultProtocolInNestedPodSpec (obj : List (Str × GoVal)) (fields : List Str) :
    List (Str × GoVal) × Nat :=
  match nestedFieldAux (.obj obj) fields with
  | .error _ => (obj, 1)
  | .ok none => (obj, 1)
  | .ok (some .null) => (obj, 1)
  | .ok (some (.obj ps)) =>
      let done := setDefaultProtocolInPodSpec ps
      (match setNestedField obj (.obj done.1) fields with
       | .ok obj2 => (obj2, done.2)
       | .error _ => (obj, done.2 + 1))
  | .ok (some _) => (obj, 1)

/-- `setDefaultProtocol`: dispatch on the object's group kind (modelled as a
kind tag) to the pod-spec path of each workload kind, or to the service ports
list; all other kinds are untouched.  A non-zero error count becomes one
`ObjectParseError` for the object. -/
def setDefaultProtocol (kind : Str) (content : List (Str × GoVal)) :
    List (Str × GoVal) × Nat :=
  if kind == str "Pod" then
    setDefaultProtocolInNestedPodSpec content [str "spec"]
  else if kind == str "DaemonSet" || kind == str "Deployment" ||
      kind == str "ReplicaSet" || kind == str "StatefulSet" ||
      kind == str "Job" || kind == str "ReplicationController" then
    setDefaultProtocolInNestedPodSpec content [str "spec", str "template", str "spec"]
  else if kind == str "CronJob" then
    setDefaultProtocolInNestedPodSpec content
      [str "spec", str "jobTemplate", str "spec", str "template", str "spec"]
  else if kind == str "Service" then
    setDefaultProtocolInNestedPorts content [str "spec", str "ports"]
  else (content, 0)

/-- `identityFields` from declared_field_hydrator.go. -/
def identityFields : List Str :=
  [str "/apiVersion", str "/kind", str "/metadata/name",
   str "/metadata/namespace", str "/metadata/creationTimestamp"]

/-- An unstructured object for the hydrator: kind tag, content map, and
annotations. -/
structure UObject where
  kind : Str
  content : List (Str × GoVal)
  annots : List (Str × Str)

instance : Inhabited UObject := ⟨⟨[], [], []⟩⟩

/-- `encodeDeclaredFields`: default the protocols (error means the returned
fields string is empty), then serialize the field path set of the hydrated
content minus the identity fields.  Returns the updated object, the fields
string, and whether an error occurred. -/
def encodeDeclaredFields (obj : UObject) : UObject × Str × Bool :=
  let done := setDefaultProtocol obj.kind obj.content
  if done.2 != 0 then ({obj with content := done.1}, [], true)
  else ({obj with content := done.1},
        PathSetToString (toFieldSet (.obj done.1) identityFields), false)

/-- `DeclaredFields` from declared_field_hydrator.go: for every object in the
batch, encode its declared fields (collecting the error, if any) and set the
declared-fields annotation — unconditionally, so a failed object carries the
empty string.  Returns the updated batch and the number of collected
errors. -/
def hydrateDeclaredFields : List UObject → List UObject × Nat
  | [] => ([], 0)
  | obj :: rest =>
      let one := encodeDeclaredFields obj
      let annotated : UObject :=
        {one.1 with annots := setAnnotValue one.1.annots DeclaredFieldsKey one.2.1}
      let more := hydrateDeclaredFields rest
      (annotated :: more.1, (if one.2.2 then 1 else 0) + more.2)

/-! ### Shared lemmas for the hydrator claims -/

theorem lookupAnnot_setAnnotValue (annots : List (Str × Str)) (key v : Str) :
    lookupAnnot (setAnnotValue annots key v) key = some v := by
  induction annots with
  | nil => simp [setAnnotValue, lookupAnnot]
  | cons kv rest ih =>
    obtain ⟨k, w⟩ := kv
    by_cases h : k == key
    · simp [setAnnotValue, lookupAnnot, h]
    · simp only [setAnnotValue, lookupAnnot, h]
      simp at h
      simp [h, ih]

theorem hydrateDeclaredFields_pointwise (objs : List UObject) :
    ∀ p ∈ objs.zip (hydrateDeclaredFields objs).1,
      p.2 = {(encodeDeclaredFields p.1).1 with
             annots := setAnnotValue (encodeDeclaredFields p.1).1.annots
               DeclaredFieldsKey (encodeDeclaredFields p.1).2.1} := by
  induction objs with
  | nil => simp
  | cons obj rest ih =>
    intro p hp
    rw [hydrateDeclaredFields] at hp
    simp only [List.zip_cons_cons, List.mem_cons] at hp
    cases hp with
    | inl h => subst h; rfl
    | inr h => exact ih p h

theorem hydrateDeclaredFields_length (objs : List UObject) :
    (hydrateDeclaredFields objs).1.length = objs.length := by
  induction objs with
  | nil => rfl
  | cons obj rest ih => simp [hydrateDeclaredFields, ih]

theorem hydrateDeclaredFields_errCount (objs : List UObject) :
    (hydrateDeclaredFields objs).2 =
      (objs.filter (fun o => (encodeDeclaredFields o).2.2)).length := by
  induction objs with
  | nil => rfl
  | cons obj rest ih =>
    rw [hydrateDeclaredFields, List.filter_cons]
    cases h : (encodeDeclaredFields obj).2.2 with
    | true => simp [h, ih, Nat.add_comm]
    | false => simp [h, ih]

/-- `toFieldSet` with an ignore-list equals the full field set with the
ignored paths filtered out afterwards: deleting from the path set before
sorting is the same as subtracting from the sorted full set. -/
theorem toFieldSet_ignore_filter (d : GoVal) (I : List Str) :
    toFieldSet d I = (toFieldSet d []).filter (fun p => !I.contains p) := by
  rw [toFieldSet, toFieldSet]
  have hnil : (traverseCurrentNode d ['/']).dedup.filter
      (fun p => !([] : List Str).contains p) =
      (traverseCurrentNode d ['/']).dedup := by
    simp [List.contains]
  rw [hnil, SortFieldSet, SortFieldSet]
  refine List.eq_of_perm_of_sorted (r := pathLe) ?_ ?_ ?_
  · refine ((List.perm_insertionSort pathLe _).trans ?_).trans
      ((List.perm_insertionSort pathLe _).filter _).symm
    exact List.Perm.refl _
  · exact List.sorted_insertionSort pathLe _
  · exact (List.sorted_insertionSort pathLe _).filter _

/-! ### Claim C3: annotation value is the field set minus the identity fields -/

/-- Claim C3: `identityFields` is exactly apiVersion, kind, metadata name and
namespace, and creationTimestamp; and for every unstructured object whose
encoding succeeds, the hydration writes a declared-fields annotation whose
value is the serialization of the hydrated object's full computed field path
set minus exactly those identity fields. -/
theorem encodeDeclaredFields_spec :
    identityFields =
      [str "/apiVersion", str "/kind", str "/metadata/name",
       str "/metadata/namespace", str "/metadata/creationTimestamp"] ∧
    ∀ (objs : List UObject), ∀ p ∈ objs.zip (hydrateDeclaredFields objs).1,
      (encodeDeclaredFields p.1).2.2 = false →
      lookupAnnot p.2.annots DeclaredFieldsKey =
        some (PathSetToString
          ((toFieldSet (.obj p.2.content) []).filter
            (fun q => !identityFields.contains q))) := by
  refine ⟨rfl, fun objs p hp hok => ?_⟩
  rw [hydrateDeclaredFields_pointwise objs p hp, lookupAnnot_setAnnotValue]
  simp only [encodeDeclaredFields] at hok ⊢
  cases h : (setDefaultProtocol p.1.kind p.1.content).2 != 0 with
  | true => simp [h] at hok
  | false =>
    simp only [h, Bool.false_eq_true, if_false]
    rw [toFieldSet_ignore_filter]

/-- Witness for Claim C3 at a concrete one-object batch. -/
theorem encodeDeclaredFields_witness :
    lookupAnnot ((hydrateDeclaredFields
        [⟨str "Role", [(str "apiVersion", .str (str "v1")),
                      (str "kind", .str (str "Role")),
                      (str "rules", .arr [])], []⟩]).1.headI).annots
      DeclaredFieldsKey = some (str "/rules") := by
  have h := encodeDeclaredFields_spec.2
    [⟨str "Role", [(str "apiVersion", .str (str "v1")),
                  (str "kind", .str (str "Role")),
                  (str "rules", .arr [])], []⟩]
    (⟨str "Role", [(str "apiVersion", .str (str "v1")),
                  (str "kind", .str (str "Role")),
                  (str "rules", .arr [])], []⟩,
     (hydrateDeclaredFields
        [⟨str "Role", [(str "apiVersion", .str (str "v1")),
                      (str "kind", .str (str "Role")),
                      (str "rules", .arr [])], []⟩]).1.headI)
    (List.Mem.head _) rfl
  rw [h]
  decide

/-! ### Claim C10: batch hydration annotates every object -/

/-- Claim C10: the batch hydration sets the declared-fields annotation on
every object of the batch — pairing each input with its output, the output
always carries the annotation with exactly the fields string its own encoding
produced; objects whose encoding failed carry the empty string; and the
collected error count is the number of failed objects (so a malformed object
neither loses the annotation key nor stops later objects from being
annotated). -/
theorem hydrateDeclaredFields_spec (objs : List UObject) :
    (hydrateDeclaredFields objs).1.length = objs.length ∧
    (∀ p ∈ objs.zip (hydrateDeclaredFields objs).1,
      lookupAnnot p.2.annots DeclaredFieldsKey =
        some (encodeDeclaredFields p.1).2.1) ∧
    (∀ p ∈ objs.zip (hydrateDeclaredFields objs).1,
      (encodeDeclaredFields p.1).2.2 = true →
        lookupAnnot p.2.annots DeclaredFieldsKey = some []) ∧
    (hydrateDeclaredFields objs).2 =
      (objs.filter (fun o => (encodeDeclaredFields o).2.2)).length := by
  refine ⟨hydrateDeclaredFields_length objs, ?_, ?_,
    hydrateDeclaredFields_errCount objs⟩
  · intro p hp
    rw [hydrateDeclaredFields_pointwise objs p hp, lookupAnnot_setAnnotValue]
  · intro p hp hfail
    rw [hydrateDeclaredFields_pointwise objs p hp, lookupAnnot_setAnnotValue]
    simp only [encodeDeclaredFields] at hfail ⊢
    cases h : (setDefaultProtocol p.1.kind p.1.content).2 != 0 with
    | true => simp [h]
    | false => simp [h] at hfail

/-- Witness for Claim C10 on a two-object batch whose first object is a Pod
with no spec (its protocol defaulting fails) and whose second is a plain
Role: the failed Pod still gets the annotation (empty), the Role behind it is
annotated normally, and exactly one error is collected. -/
theorem hydrateDeclaredFields_witness :
    lookupAnnot ((hydrateDeclaredFields
        [⟨str "Pod", [(str "kind", .str (str "Pod"))], []⟩,
         ⟨str "Role", [(str "kind", .str (str "Role")),
                       (str "rules", .arr [])], []⟩]).1.headI).annots
      DeclaredFieldsKey = some [] ∧
    lookupAnnot (((hydrateDeclaredFields
        [⟨str "Pod", [(str "kind", .str (str "Pod"))], []⟩,
         ⟨str "Role", [(str "kind", .str (str "Role")),
                       (str "rules", .arr [])], []⟩]).1.getD 1 default)).annots
      DeclaredFieldsKey = some (str "/rules") ∧
    (hydrateDeclaredFields
        [⟨str "Pod", [(str "kind", .str (str "Pod"))], []⟩,
         ⟨str "Role", [(str "kind", .str (str "Role")),
                       (str "rules", .arr [])], []⟩]).2 = 1 := by
  refine ⟨?_, ?_, ?_⟩
  · exact (hydrateDeclaredFields_spec
      [⟨str "Pod", [(str "kind", .str (str "Pod"))], []⟩,
       ⟨str "Role", [(str "kind", .str (str "Role")),
                     (str "rules", .arr [])], []⟩]).2.2.1
      _ (List.Mem.head _) rfl
  · exact (hydrateDeclaredFields_spec
      [⟨str "Pod", [(str "kind", .str (str "Pod"))], []⟩,
       ⟨str "Role", [(str "kind", .str (str "Role")),
                     (str "rules", .arr [])], []⟩]).2.1
      _ (List.Mem.tail _ (List.Mem.head _))
  · exact ((hydrateDeclaredFields_spec
      [⟨str "Pod", [(str "kind", .str (str "Pod"))], []⟩,
       ⟨str "Role", [(str "kind", .str (str "Role")),
                     (str "rules", .arr [])], []⟩]).2.2.2).trans (by decide)

/-! ### pkg/parse/status.go -/

/-- The `SourceSpec` tagged union over Git, OCI, and Helm. -/
inductive SourceSpec where
  | git (repo revision branch dir : Str)
  | oci (image dir : Str)
  | helm (repo version chart : Str)
deriving DecidableEq

/-- `Equals` on the `SourceSpec` implementations: same variant with equal
fields; cross-variant comparison is false. -/
def sourceSpecEquals : SourceSpec → SourceSpec → Bool
  | .git r v b d, .git r2 v2 b2 d2 => r == r2 && v == v2 && b == b2 && d == d2
  | .oci i d, .oci i2 d2 => i == i2 && d == d2
  | .helm r v c, .helm r2 v2 c2 => r == r2 && v == v2 && c == c2
  | _, _ => false

/-- `isSourceSpecEqual` from status.go: nil-tolerant spec comparison. -/
def isSourceSpecEqual : Option SourceSpec → Option SourceSpec → Bool
  | none, none => true
  | none, some _ => false
  | some _, none => false
  | some a, some b => sourceSpecEquals a b

/-- `SourceStatus` from status.go.  `metav1.Time` is modelled as a natural
number (zero = the zero time, `Before` = strict less-than); `status.MultiError`
values are modelled as lists of error strings with `status.DeepEqual` as list
equality. -/
structure SourceStatus where
  spec : Option SourceSpec
  commit : Str
  errs : List Str
  lastUpdate : Nat
deriving DecidableEq

/-- `SourceStatus.Equals`: value comparison ignoring `LastUpdate`. -/
def sourceStatusEquals (a b : SourceStatus) : Bool :=
  a.commit == b.commit && a.errs == b.errs && isSourceSpecEqual a.spec b.spec

/-- `RenderingStatus` from status.go. -/
structure RenderingStatus where
  spec : Option SourceSpec
  commit : Str
  message : Str
  errs : List Str
  lastUpdate : Nat
  requiresRendering : Bool
deriving DecidableEq

/-- `RenderingStatus.Equals`: value comparison ignoring `LastUpdate`. -/
def renderingStatusEquals (a b : RenderingStatus) : Bool :=
  a.commit == b.commit && a.message == b.message && a.errs == b.errs &&
  isSourceSpecEqual a.spec b.spec

/-- `SyncStatus` from status.go. -/
structure SyncStatus where
  spec : Option SourceSpec
  syncing : Bool
  commit : Str
  errs : List Str
  lastUpdate : Nat
deriving DecidableEq

/-- `SyncStatus.Equals`: value comparison ignoring `LastUpdate`. -/
def syncStatusEquals (a b : SyncStatus) : Bool :=
  a.syncing == b.syncing && a.commit == b.commit && a.errs == b.errs &&
  isSourceSpecEqual a.spec b.spec

/-- `ReconcilerStatus` from status.go: the in-memory cache of the three
sub-statuses. -/
structure ReconcilerStatus where
  sourceStatus : Option SourceStatus
  renderingStatus : Option RenderingStatus
  syncStatus : Option SyncStatus
  syncingConditionLastUpdate : Nat
deriving DecidableEq

/-- `needToSetSourceStatus` from status.go. -/
def needToSetSourceStatus (s : ReconcilerStatus) (newStatus : SourceStatus) : Bool :=
  match s.sourceStatus with
  | none => true
  | some cur =>
    if cur.lastUpdate = 0 then true
    else if (match s.renderingStatus with
             | some r => decide (cur.lastUpdate < r.lastUpdate)
             | none => false) then true
    else !(sourceStatusEquals cur newStatus)

/-- `needToSetSyncStatus` from status.go. -/
def needToSetSyncStatus (s : ReconcilerStatus) (newStatus : SyncStatus) : Bool :=
  match s.syncStatus with
  | none => true
  | some cur =>
    if cur.lastUpdate = 0 then true
    else if (match s.renderingStatus with
             | some r => decide (cur.lastUpdate < r.lastUpdate)
             | none => false) then true
    else if (match s.sourceStatus with
             | some src => decide (cur.lastUpdate < src.lastUpdate)
             | none => false) then true
    else !(syncStatusEquals cur newStatus)

/-! ### Claim C8: the sync-status write decision -/

/-- Claim C8: for a cached sync status that exists and has a non-zero last
update, `needToSetSyncStatus new` returns true exactly when the cached sync
status was last updated strictly before the (existing) rendering status, or
strictly before the (existing) source status, or differs from `new` by value
ignoring timestamps; otherwise it returns false and the write is skipped. -/
theorem needToSetSyncStatus_spec (s : ReconcilerStatus) (cached newStatus : SyncStatus)
    (hc : s.syncStatus = some cached) (hz : cached.lastUpdate ≠ 0) :
    needToSetSyncStatus s newStatus = true ↔
      ((∃ r, s.renderingStatus = some r ∧ cached.lastUpdate < r.lastUpdate) ∨
       (∃ src, s.sourceStatus = some src ∧ cached.lastUpdate < src.lastUpdate) ∨
       syncStatusEquals cached newStatus = false) := by
  rw [needToSetSyncStatus, hc]
  simp only [if_neg hz]
  cases hr : s.renderingStatus with
  | some r =>
    cases hlt : decide (cached.lastUpdate < r.lastUpdate) with
    | true => simp [hlt, of_decide_eq_true hlt]
    | false =>
      simp only [hlt, if_false]
      cases hsrc : s.sourceStatus with
      | some src =>
        cases hlt2 : decide (cached.lastUpdate < src.lastUpdate) with
        | true => simp [hlt2, of_decide_eq_true hlt2]
        | false =>
          simp [hlt2, of_decide_eq_false hlt, of_decide_eq_false hlt2]
      | none => simp [of_decide_eq_false hlt]
  | none =>
    cases hsrc : s.sourceStatus with
    | some src =>
      cases hlt2 : decide (cached.lastUpdate < src.lastUpdate) with
      | true => simp [hlt2, of_decide_eq_true hlt2]
      | false => simp [hlt2, of_decide_eq_false hlt2]
    | none => simp

/-- Witness for Claim C8: a cached sync status older than the rendering
status forces a write. -/
theorem needToSetSyncStatus_witness :
    needToSetSyncStatus
      ⟨none, some ⟨none, str "c1", str "ok", [], 10, false⟩,
       some ⟨none, false, str "c1", [], 5⟩, 0⟩
      ⟨none, false, str "c1", [], 11⟩ = true :=
  (needToSetSyncStatus_spec _ _ _ rfl (by decide)).mpr
    (Or.inl ⟨⟨none, str "c1", str "ok", [], 10, false⟩, rfl, by decide⟩)

/-! ### The parse-apply-watch control loop (`DefaultRunFunc` and helpers)

The run function is embedded as explicit state passing: the in-process
`reconcilerState` (whose own source file is not part of the sources and is
modelled from the spec), a clock counter for `opts.Clock.Now()`, and a trace
of calls to the external parser/applier collaborators are threaded through;
every external collaborator (source fetch, hydrated-dir reader, config-file
reader, manifest parser, applier, status writers) answers from a fixed
environment record.  The background periodic sync-status ticker (a goroutine)
is outside the model; it performs no parse or apply work. -/

/-- Trigger-label constants from the run function's source file. -/
def triggerResync : Str := str "resync"

/-- The reimport trigger label. -/
def triggerReimport : Str := str "reimport"

/-- The retry trigger label. -/
def triggerRetry : Str := str "retry"

/-- The management-conflict trigger label. -/
def triggerManagementConflict : Str := str "managementConflict"

/-- The watch-update trigger label. -/
def triggerWatchUpdate : Str := str "watchUpdate"

/-- The namespace-event trigger label. -/
def namespaceEvent : Str := str "namespaceEvent"

/-- Rendering-status message constant. -/
def RenderingInProgress : Str := str "Rendering is still in progress"

/-- Rendering-status message constant. -/
def RenderingSucceeded : Str := str "Rendering succeeded"

/-- Rendering-status message constant. -/
def RenderingFailed : Str := str "Rendering failed"

/-- Rendering-status message constant. -/
def RenderingSkipped : Str := str "Rendering skipped"

/-- Rendering-status message constant. -/
def RenderingRequired : Str := str "Rendering required but is currently disabled"

/-- Rendering-status message constant. -/
def RenderingNotRequired : Str := str "Rendering not required but is currently enabled"

/-- The reconciler's configured file source (repository, revision, branch,
sync directory), as consumed by `SourceSpecFromFileSource`. -/
structure FileSource where
  sourceRepo : Str
  sourceRev : Str
  sourceBranch : Str
  syncDir : Str
deriving DecidableEq

/-- The `configsync.SourceType` tag. -/
inductive SourceType where
  | git
  | oci
  | helm
deriving DecidableEq

/-- Generic single-character splitter (`strings.Split` with a one-character
separator). -/
def splitCharAux (sep : Char) : Str → Str → List Str
  | [], acc => [acc.reverse]
  | c :: rest, acc =>
      if c == sep then acc.reverse :: splitCharAux sep rest []
      else splitCharAux sep rest (c :: acc)

/-- `getChartVersionFromCommit` from status.go: commits of the form
chart:version yield the version; otherwise fall back to the configured
revision. -/
def getChartVersionFromCommit (sourceRev commit : Str) : Str :=
  let split := splitCharAux ':' commit []
  if split.length = 2 then split.getD 1 [] else sourceRev

/-- `SourceSpecFromFileSource` from status.go.  The Go function leaves the
interface value nil for an unknown source type; the type tag here is a closed
union, so the result is always present. -/
def SourceSpecFromFileSource (source : FileSource) (sourceType : SourceType)
    (commit : Str) : Option SourceSpec :=
  match sourceType with
  | .git => some (.git source.sourceRepo source.sourceRev source.sourceBranch source.syncDir)
  | .oci => some (.oci source.sourceRepo source.syncDir)
  | .helm => some (.helm source.sourceRepo
      (getChartVersionFromCommit source.sourceRev commit) source.syncDir)

/-- Modelled from the spec: the `sourceState` record of the reconciler cache —
the source spec, commit, resolved sync directory, and the file list read from
it ("last successfully read source directory, last parse result"). -/
structure SourceState where
  spec : Option SourceSpec
  commit : Str
  syncDir : Str
  files : List Str
deriving DecidableEq

/-- The zero `sourceState`. -/
def emptySourceState : SourceState := ⟨none, [], [], []⟩

/-- Modelled from the spec: the reconciler cache — cached source state, the
parser-result-up-to-date flag, the cached parse result, and the need-to-retry
flag. -/
structure ReconcilerCache where
  source : Option SourceState
  parserResultUpToDate : Bool
  objs : List UObject
  needToRetry : Bool

/-- The fully reset cache. -/
def emptyCache : ReconcilerCache := ⟨none, false, [], false⟩

/-- Call counters for the external parse/apply collaborators (the "call
counter on the parser stub" of the spec's testable property 9). -/
structure RunTrace where
  readConfigFilesCalls : Nat
  parseSourceCalls : Nat
  updateCalls : Nat

/-- The in-memory state threaded through one run: the cached
`ReconcilerStatus`, the reconciler cache, the clock counter, and the call
trace. -/
structure LoopState where
  status : Option ReconcilerStatus
  cache : ReconcilerCache
  clock : Nat
  trace : RunTrace

/-- Outcome of `os.Stat` on the rendering done-file. -/
inductive DoneFileState where
  | missing
  | statError
  | done (commit : Str)

/-- Outcome of `os.Stat` on the hydrated root directory. -/
inductive HydratedRootState where
  | statOk
  | notExist
  | statError

/-- The environment of external collaborators answering one run invocation:
fetch results, filesystem observations, status-write outcomes, and the
parser/applier results. -/
structure RunEnv where
  statusFromCluster : Except (List Str) ReconcilerStatus
  fetchCommit : Str
  fetchSyncDir : Str
  fetchErrs : List Str
  fileSource : FileSource
  sourceType : SourceType
  renderingEnabled : Bool
  doneFile : DoneFileState
  hydratedRootValid : Bool
  hydratedRootStat : HydratedRootState
  readHydratedDir : Except (List Str) SourceState
  readConfigFilesErrs : List Str
  readFilesList : List Str
  setSourceStatusErr : Option Str
  setRenderingStatusErr : Option Str
  setSyncStatusErr : Option Str
  setRequiresRenderingErr : Option Str
  webhookEnabled : Bool
  parsedObjs : List UObject
  parseErrs : List Str
  parseErrsBlocking : Bool
  updateErrs : List Str
  syncErrors : List Str
  reportConflictsErr : Option Str

/-- `RunResult` from the run function's source file. -/
structure RunResult where
  sourceChanged : Bool
  success : Bool
  errors : List Str

/-- The cached status, with the zero value standing in for the nil pointer
(the run function only reads it after priming it). -/
def statusOf (ls : LoopState) : ReconcilerStatus :=
  ls.status.getD ⟨none, none, none, 0⟩

/-- `opts.Clock.Now()`: return the current instant and advance the clock. -/
def tick (ls : LoopState) : Nat × LoopState :=
  (ls.clock + 1, {ls with clock := ls.clock + 1})

/-- Modelled from the spec: `state.invalidate(errs)` marks the run for retry
and the parser result stale. -/
def invalidateLS (ls : LoopState) : LoopState :=
  {ls with cache := {ls.cache with needToRetry := true, parserResultUpToDate := false}}

/-- Modelled from the spec: `state.checkpoint()` clears the retry flag after a
fully successful run. -/
def checkpointLS (ls : LoopState) : LoopState :=
  {ls with cache := {ls.cache with needToRetry := false}}

/-- Modelled from the spec: `state.reset()` fully resets the cache. -/
def resetLS (ls : LoopState) : LoopState := {ls with cache := emptyCache}

/-- Modelled from the spec: `state.resetCache()` inside `readFromSource`. -/
def resetCacheOnly (_cache : ReconcilerCache) : ReconcilerCache := emptyCache

/-- Record a source status write in the in-memory cache. -/
def cacheSourceStatus (ls : LoopState) (gs : SourceStatus) : LoopState :=
  {ls with status := some {statusOf ls with
    sourceStatus := some gs,
    syncingConditionLastUpdate := gs.lastUpdate}}

/-- Record a rendering status write in the in-memory cache. -/
def cacheRenderingStatus (ls : LoopState) (rs : RenderingStatus) : LoopState :=
  {ls with status := some {statusOf ls with
    renderingStatus := some rs,
    syncingConditionLastUpdate := rs.lastUpdate}}

/-- Record a sync status write in the in-memory cache. -/
def cacheSyncStatus (ls : LoopState) (ss : SyncStatus) : LoopState :=
  {ls with status := some {statusOf ls with
    syncStatus := some ss,
    syncingConditionLastUpdate := ss.lastUpdate}}

/-- Modelled from the spec: `hydrate.HasKustomization` recognizes the three
kustomization file names. -/
def hasKustomization (base : Str) : Bool :=
  base == str "kustomization.yaml" || base == str "kustomization.yml" ||
  base == str "Kustomization"

/-- Modelled from the spec: `path.Base`, the last slash-separated component. -/
def pathBase (s : Str) : Str := ((splitSlash s).getLast?).getD s

/-- `core.RemoveAnnotations` for one key. -/
def removeAnnotKey (annots : List (Str × Str)) (key : Str) : List (Str × Str) :=
  annots.filter (fun kv => !(kv.1 == key))

/-- `namespace.setRenderingStatus`: a write that equals the cached old status
(ignoring timestamps) is skipped and always succeeds; otherwise the API write
outcome comes from the environment. -/
def setRenderingStatusCall (env : RunEnv) (old : Option RenderingStatus)
    (new : RenderingStatus) : Option Str :=
  if (match old with
      | none => false
      | some o => renderingStatusEquals o new) then none
  else env.setRenderingStatusErr

/-- `parseHydrationState`: with rendering disabled the source state passes
through; otherwise the hydrated directory is read (with its failure modes)
and replaces the source state. -/
def parseHydrationState (env : RunEnv) (srcState : SourceState)
    (hydrationStatus : RenderingStatus) : SourceState × RenderingStatus :=
  if !env.renderingEnabled then
    (srcState, {hydrationStatus with message := RenderingSkipped})
  else if !env.hydratedRootValid then
    (srcState, {hydrationStatus with
      message := RenderingFailed,
      errs := [str "hydrated-dir must be an absolute path"]})
  else
    match env.hydratedRootStat with
    | .statOk =>
      (match env.readHydratedDir with
       | .error e => (srcState, {hydrationStatus with message := RenderingFailed, errs := e})
       | .ok newState => (newState, {hydrationStatus with message := RenderingSucceeded}))
    | .statError =>
      (srcState, {hydrationStatus with
        message := RenderingFailed,
        errs := [str "unable to evaluate the hydrated path"]})
    | .notExist =>
      (srcState, {hydrationStatus with
        message := RenderingNotRequired,
        requiresRendering := false,
        errs := [str "sync source contains only wet configs and hydration-controller is running"]})

/-- Result bundle of `readFromSource`. -/
structure ReadResult where
  hydrationStatus : RenderingStatus
  sourceStatus : SourceStatus
  cache : ReconcilerCache
  readConfigFilesCalled : Bool

/-- `readFromSource`: resolve the hydrated source state, return early on
hydration errors or when the resolved directory equals the cached one, and
otherwise read all config files, reset the cache, and (on success) cache the
new source state. -/
def readFromSource (env : RunEnv) (cache : ReconcilerCache)
    (srcState0 : SourceState) : ReadResult :=
  let hydrationStatus0 : RenderingStatus :=
    ⟨srcState0.spec, srcState0.commit, [], [], 0, env.renderingEnabled⟩
  let srcStatus0 : SourceStatus := ⟨srcState0.spec, srcState0.commit, [], 0⟩
  let ph := parseHydrationState env srcState0 hydrationStatus0
  if ph.2.errs ≠ [] then ⟨ph.2, srcStatus0, cache, false⟩
  else if ph.1.syncDir = (cache.source.getD emptySourceState).syncDir then
    ⟨ph.2, srcStatus0, cache, false⟩
  else
    let srcState2 : SourceState := {ph.1 with files := env.readFilesList}
    let srcStatusErrs := env.readConfigFilesErrs
    if !env.renderingEnabled &&
        srcState2.files.any (fun fi => hasKustomization (pathBase fi)) then
      ⟨{ph.2 with
         message := RenderingRequired,
         requiresRendering := true,
         errs := [str "sync source contains dry configs and hydration-controller is not running"]},
       {srcStatus0 with errs := srcStatusErrs}, cache, true⟩
    else
      let cache2 := resetCacheOnly cache
      let cache3 := if srcStatusErrs = [] then {cache2 with source := some srcState2}
                    else cache2
      ⟨ph.2, {srcStatus0 with errs := srcStatusErrs}, cache3, true⟩

/-- `read`: run `readFromSource`, reconcile the requires-rendering annotation,
publish the rendering status (and cache it on success), and re-publish the
source status when reading failed.  The unused outer `setSourceStatusErr`
variable of the Go code (shadowed by the inner short declaration) means read
errors never include a source-status write error. -/
def readFn (env : RunEnv) (ls0 : LoopState) (ps : SourceState) :
    List Str × LoopState :=
  let rr := readFromSource env ls0.cache ps
  let ls := {ls0 with
    cache := rr.cache,
    trace := {ls0.trace with readConfigFilesCalls :=
      ls0.trace.readConfigFilesCalls + (if rr.readConfigFilesCalled then 1 else 0)}}
  let hydrationStatus1 :=
    if env.renderingEnabled != rr.hydrationStatus.requiresRendering then
      (match env.setRequiresRenderingErr with
       | some e => {rr.hydrationStatus with errs := rr.hydrationStatus.errs ++ [e]}
       | none => rr.hydrationStatus)
    else rr.hydrationStatus
  let t := tick ls
  let hydrationStatus : RenderingStatus := {hydrationStatus1 with lastUpdate := t.1}
  let setRenderingErr :=
    setRenderingStatusCall env (statusOf t.2).renderingStatus hydrationStatus
  let ls2 := match setRenderingErr with
    | none => cacheRenderingStatus t.2 hydrationStatus
    | some _ => t.2
  let renderingErrs := hydrationStatus.errs ++
    (match setRenderingErr with | some e => [e] | none => [])
  if renderingErrs ≠ [] then (renderingErrs, ls2)
  else if rr.sourceStatus.errs = [] then ([], ls2)
  else
    let t2 := tick ls2
    let sourceStatus : SourceStatus := {rr.sourceStatus with lastUpdate := t2.1}
    let ls3 :=
      if needToSetSourceStatus (statusOf t2.2) sourceStatus then
        (match env.setSourceStatusErr with
         | none => cacheSourceStatus t2.2 sourceStatus
         | some _ => t2.2)
      else t2.2
    (sourceStatus.errs, ls3)

/-- `parseSource`: skipped entirely when the cached parser result is up to
date; otherwise call the parser, strip the declared-fields annotation when
the webhook is disabled, and cache the result. -/
def parseSourceFn (env : RunEnv) (ls0 : LoopState) : List Str × LoopState :=
  if ls0.cache.parserResultUpToDate then ([], ls0)
  else
    let ls := {ls0 with trace :=
      {ls0.trace with parseSourceCalls := ls0.trace.parseSourceCalls + 1}}
    let objs :=
      if !env.webhookEnabled then
        env.parsedObjs.map (fun o =>
          {o with annots := removeAnnotKey o.annots DeclaredFieldsKey})
      else env.parsedObjs
    let sourceErrs := env.parseErrs
    let ls2 := {ls with cache :=
      {ls.cache with objs := objs, parserResultUpToDate := sourceErrs = []}}
    (sourceErrs, ls2)

/-- `setSyncStatus`: build the new sync status at the current instant, write
it if `needToSetSyncStatus` says so (caching on success), then report root
conflicts. -/
def setSyncStatusFn (env : RunEnv) (ls0 : LoopState) (spec : Option SourceSpec)
    (syncing : Bool) (commit : Str) (syncErrs : List Str) :
    Option Str × LoopState :=
  let t := tick ls0
  let newSyncStatus : SyncStatus := ⟨spec, syncing, commit, syncErrs, t.1⟩
  let step :=
    if needToSetSyncStatus (statusOf t.2) newSyncStatus then
      (match env.setSyncStatusErr with
       | some e => (some e, t.2, true)
       | none => (none, cacheSyncStatus t.2 newSyncStatus, false))
    else (none, t.2, false)
  match step with
  | (some e, ls, _) => (some e, ls)
  | (none, ls, _) =>
    (match env.reportConflictsErr with
     | some e => (some (str "failed to report remote conflicts: " ++ e), ls)
     | none => (none, ls))

/-- `parseAndUpdate`: parse, publish the post-parse source status, stop on
blocking parse errors, hand the cache to the applier, and publish the final
sync status.  The periodic status goroutine is outside the model. -/
def parseAndUpdateFn (env : RunEnv) (ls0 : LoopState) : List Str × LoopState :=
  let parsed := parseSourceFn env ls0
  let sourceErrs := parsed.1
  let t := tick parsed.2
  let src := (t.2.cache.source.getD emptySourceState)
  let newSourceStatus : SourceStatus := ⟨src.spec, src.commit, sourceErrs, t.1⟩
  let step :=
    if needToSetSourceStatus (statusOf t.2) newSourceStatus then
      (match env.setSourceStatusErr with
       | some e => (some e, t.2)
       | none => (none, cacheSourceStatus t.2 newSourceStatus))
    else (none, t.2)
  match step with
  | (some e, ls) => (sourceErrs ++ [e], ls)
  | (none, ls) =>
    if env.parseErrsBlocking then (sourceErrs, ls)
    else
      let ls2 := {ls with trace :=
        {ls.trace with updateCalls := ls.trace.updateCalls + 1}}
      let syncErrs0 := env.syncErrors
      let srcSpec := ((statusOf ls2).sourceStatus.getD ⟨none, [], [], 0⟩).spec
      let commit := (ls2.cache.source.getD emptySourceState).commit
      let done := setSyncStatusFn env ls2 srcSpec false commit syncErrs0
      let syncErrs := syncErrs0 ++ (match done.1 with | some e => [e] | none => [])
      (sourceErrs ++ syncErrs, done.2)

/-- The sync directory cached from the last successful read (the zero value
when the cache is uninitialized, matching the zero `sourceState` the run
function installs). -/
def cachedSyncDirPre (ls : LoopState) : Str :=
  (ls.cache.source.getD emptySourceState).syncDir

/-- The `if state.cache.source == nil` initialization at the top of the read
phase. -/
def initSourceCache (ls : LoopState) : LoopState :=
  if ls.cache.source.isNone
  then {ls with cache := {ls.cache with source := some emptySourceState}}
  else ls

/-- The cached directory is unchanged by initializing an absent source cache
with the zero source state. -/
theorem initSourceCache_dir (ls : LoopState) :
    (((initSourceCache ls).cache.source).getD emptySourceState).syncDir =
      cachedSyncDirPre ls := by
  rw [initSourceCache]
  cases hsrc : ls.cache.source with
  | none => simp [hsrc, cachedSyncDirPre]
  | some s => simp [hsrc, cachedSyncDirPre]

/-- Initialization does not touch the trace. -/
theorem initSourceCache_trace (ls : LoopState) :
    (initSourceCache ls).trace = ls.trace := by
  rw [initSourceCache]
  split <;> rfl

/-- The read-parse-apply tail of `DefaultRunFunc` (after the rendering gate):
on unchanged directory under a plain reimport trigger, return before parsing
or applying. -/
def runReadPhase (env : RunEnv) (trigger : Str) (ls0 : LoopState)
    (gsSpec : Option SourceSpec) (gsCommit syncDir : Str) :
    RunResult × LoopState :=
  let ls := initSourceCache ls0
  let oldSyncDir := (ls.cache.source.getD emptySourceState).syncDir
  let ps : SourceState := ⟨gsSpec, gsCommit, syncDir, []⟩
  let readDone := readFn env ls ps
  if readDone.1 ≠ [] then
    (⟨false, false, readDone.1⟩, invalidateLS readDone.2)
  else
    let newSyncDir := ((readDone.2).cache.source.getD emptySourceState).syncDir
    let sourceChanged := newSyncDir ≠ oldSyncDir
    if trigger = triggerReimport ∧ oldSyncDir = newSyncDir then
      (⟨sourceChanged, false, []⟩, readDone.2)
    else
      let pu := parseAndUpdateFn env readDone.2
      if pu.1 ≠ [] then (⟨sourceChanged, false, pu.1⟩, invalidateLS pu.2)
      else (⟨sourceChanged, true, []⟩, checkpointLS pu.2)

/-- The rendering gate of `DefaultRunFunc` (done-file checks when rendering
is enabled), reporting rendering-in-progress or done-file failures before any
reading happens. -/
def runRenderingGate (env : RunEnv) (trigger : Str) (ls0 : LoopState)
    (gsSpec : Option SourceSpec) (gsCommit syncDir : Str) :
    RunResult × LoopState :=
  let rs0 : RenderingStatus :=
    ⟨gsSpec, gsCommit, [], [], 0,
     match (statusOf ls0).renderingStatus with
     | some r => r.requiresRendering
     | none => false⟩
  if env.renderingEnabled then
    match env.doneFile with
    | .statError =>
      let t := tick ls0
      let rs : RenderingStatus := {rs0 with
        message := RenderingFailed,
        lastUpdate := t.1,
        errs := [str "unable to read the done file"]}
      (match setRenderingStatusCall env ((statusOf t.2).renderingStatus) rs with
       | none =>
          (⟨false, false, rs.errs⟩, invalidateLS (cacheRenderingStatus t.2 rs))
       | some e =>
          (⟨false, false, rs.errs ++ [e]⟩, invalidateLS t.2))
    | .missing =>
      let t := tick ls0
      let rs : RenderingStatus := {rs0 with message := RenderingInProgress, lastUpdate := t.1}
      (match setRenderingStatusCall env ((statusOf t.2).renderingStatus) rs with
       | none => (⟨false, false, []⟩, cacheRenderingStatus (resetLS t.2) rs)
       | some e => (⟨false, false, [e]⟩, invalidateLS t.2))
    | .done c =>
      if c ≠ gsCommit then
        let t := tick ls0
        let rs : RenderingStatus := {rs0 with message := RenderingInProgress, lastUpdate := t.1}
        (match setRenderingStatusCall env ((statusOf t.2).renderingStatus) rs with
         | none => (⟨false, false, []⟩, cacheRenderingStatus (resetLS t.2) rs)
         | some e => (⟨false, false, [e]⟩, invalidateLS t.2))
      else runReadPhase env trigger ls0 gsSpec gsCommit syncDir
  else runReadPhase env trigger ls0 gsSpec gsCommit syncDir

/-- The fetch-and-source-status prefix of `DefaultRunFunc` (after the status
cache is primed). -/
def runAfterInit (env : RunEnv) (trigger : Str) (ls0 : LoopState) :
    RunResult × LoopState :=
  let gsCommit := env.fetchCommit
  let syncDir := env.fetchSyncDir
  let gsErrs := env.fetchErrs
  let gsSpec := SourceSpecFromFileSource env.fileSource env.sourceType gsCommit
  let needEarlyStatus :=
    gsErrs ≠ [] ∨ (statusOf ls0).sourceStatus = none ∨
    gsCommit ≠ (((statusOf ls0).sourceStatus).getD ⟨none, [], [], 0⟩).commit
  if needEarlyStatus then
    let t := tick ls0
    let gs : SourceStatus := ⟨gsSpec, gsCommit, gsErrs, t.1⟩
    if needToSetSourceStatus (statusOf t.2) gs then
      match env.setSourceStatusErr with
      | some e => (⟨false, false, gsErrs ++ [e]⟩, invalidateLS t.2)
      | none =>
        let ls2 := cacheSourceStatus t.2 gs
        if gsErrs ≠ [] then (⟨false, false, gsErrs⟩, invalidateLS ls2)
        else runRenderingGate env trigger ls2 gsSpec gsCommit syncDir
    else
      if gsErrs ≠ [] then (⟨false, false, gsErrs⟩, invalidateLS t.2)
      else runRenderingGate env trigger t.2 gsSpec gsCommit syncDir
  else runRenderingGate env trigger ls0 gsSpec gsCommit syncDir

/-- `DefaultRunFunc`: prime the status cache from the cluster on the first
run, then fetch, gate on rendering, read, and parse-and-apply. -/
def DefaultRunFunc (env : RunEnv) (trigger : Str) (ls0 : LoopState) :
    RunResult × LoopState :=
  match ls0.status with
  | none =>
    (match env.statusFromCluster with
     | .error e => (⟨false, false, e⟩, invalidateLS ls0)
     | .ok rstatus => runAfterInit env trigger {ls0 with status := some rstatus})
  | some _ => runAfterInit env trigger ls0

/-! ### Claim C9: idempotent reimport -/

/-- The source state assembled by the run function from the fetch results. -/
def fetchedSourceState (env : RunEnv) : SourceState :=
  ⟨SourceSpecFromFileSource env.fileSource env.sourceType env.fetchCommit,
   env.fetchCommit, env.fetchSyncDir, []⟩

/-- The sync directory after hydration resolution (the rendering-status
argument does not influence it, see `parseHydrationState_fst`). -/
def resolvedSyncDir (env : RunEnv) (ps : SourceState) : Str :=
  (parseHydrationState env ps ⟨none, [], [], [], 0, false⟩).1.syncDir

/-- The sync directory cached from the last successful read. -/
def cachedSyncDir (ls : LoopState) : Str := cachedSyncDirPre ls

theorem parseHydrationState_fst (env : RunEnv) (ps : SourceState)
    (rs1 rs2 : RenderingStatus) :
    (parseHydrationState env ps rs1).1 = (parseHydrationState env ps rs2).1 := by
  rw [parseHydrationState, parseHydrationState]
  cases env.renderingEnabled <;> cases env.hydratedRootValid <;>
    cases env.hydratedRootStat <;> cases hr : env.readHydratedDir <;> simp [hr]

theorem readFromSource_skip (env : RunEnv) (cache : ReconcilerCache)
    (ps : SourceState)
    (h : resolvedSyncDir env ps = (cache.source.getD emptySourceState).syncDir) :
    (readFromSource env cache ps).cache = cache ∧
    (readFromSource env cache ps).readConfigFilesCalled = false := by
  have hdir : (parseHydrationState env ps
      ⟨ps.spec, ps.commit, [], [], 0, env.renderingEnabled⟩).1.syncDir =
      (cache.source.getD emptySourceState).syncDir := by
    rw [parseHydrationState_fst env ps _ ⟨none, [], [], [], 0, false⟩]
    exact h
  simp only [readFromSource]
  split
  · exact ⟨rfl, rfl⟩
  · exact ⟨rfl, rfl⟩

theorem readFn_skip (env : RunEnv) (ls : LoopState) (ps : SourceState)
    (h : resolvedSyncDir env ps = (ls.cache.source.getD emptySourceState).syncDir) :
    (readFn env ls ps).2.trace = ls.trace ∧
    (readFn env ls ps).2.cache = ls.cache := by
  obtain ⟨hc, hr⟩ := readFromSource_skip env ls.cache ps h
  constructor <;>
    (simp only [readFn, hc, hr, Bool.false_eq_true, if_false, Nat.add_zero]
     repeat' (first | rfl | contradiction | split))

theorem runReadPhase_skip (env : RunEnv) (ls : LoopState)
    (gsSpec : Option SourceSpec) (gsCommit syncDir : Str)
    (h : resolvedSyncDir env ⟨gsSpec, gsCommit, syncDir, []⟩ = cachedSyncDir ls) :
    (runReadPhase env triggerReimport ls gsSpec gsCommit syncDir).2.trace = ls.trace := by
  obtain ⟨ht, hcache⟩ := readFn_skip env (initSourceCache ls)
    ⟨gsSpec, gsCommit, syncDir, []⟩
    (by rw [h, cachedSyncDir]; exact (initSourceCache_dir ls).symm)
  have ht2 : (readFn env (initSourceCache ls)
      ⟨gsSpec, gsCommit, syncDir, []⟩).2.trace = ls.trace :=
    ht.trans (initSourceCache_trace ls)
  simp only [runReadPhase]
  split
  · exact ht2
  · have hcond : ((initSourceCache ls).cache.source.getD emptySourceState).syncDir =
        ((readFn env (initSourceCache ls)
          ⟨gsSpec, gsCommit, syncDir, []⟩).2.cache.source.getD
            emptySourceState).syncDir := by
      rw [hcache]
    rw [if_pos (And.intro trivial hcond)]
    exact ht2

theorem runRenderingGate_skip (env : RunEnv) (ls : LoopState)
    (gsSpec : Option SourceSpec) (gsCommit syncDir : Str)
    (h : resolvedSyncDir env ⟨gsSpec, gsCommit, syncDir, []⟩ = cachedSyncDir ls) :
    (runRenderingGate env triggerReimport ls gsSpec gsCommit syncDir).2.trace =
      ls.trace := by
  simp only [runRenderingGate]
  split
  · cases env.doneFile with
    | statError =>
      simp only []
      split <;> rfl
    | missing =>
      simp only []
      split <;> rfl
    | done c =>
      simp only []
      split
      · split <;> rfl
      · exact runReadPhase_skip env ls gsSpec gsCommit syncDir h
  · exact runReadPhase_skip env ls gsSpec gsCommit syncDir h

theorem runAfterInit_skip (env : RunEnv) (ls : LoopState)
    (h : resolvedSyncDir env (fetchedSourceState env) = cachedSyncDir ls) :
    (runAfterInit env triggerReimport ls).2.trace = ls.trace := by
  simp only [runAfterInit]
  split
  · split
    · split
      · rfl
      · split
        · rfl
        · exact runRenderingGate_skip env _ _ _ _ h
    · split
      · rfl
      · exact runRenderingGate_skip env _ _ _ _ h
  · exact runRenderingGate_skip env _ _ _ _ h

/-- Claim C9: invoking the run function with the reimport trigger when the
hydration-resolved source directory equals the cached one performs no parse
and no apply work — the parser, applier, and config-file-reader call counters
are unchanged — because the run returns at (or before) the reimport skip that
guards the parse-apply-watch sequence.  A second reimport invocation with an
unchanged source therefore does zero parse/apply work. -/
theorem DefaultRunFunc_reimport_skip (env : RunEnv) (ls : LoopState)
    (h : resolvedSyncDir env (fetchedSourceState env) = cachedSyncDir ls) :
    (DefaultRunFunc env triggerReimport ls).2.trace.parseSourceCalls =
      ls.trace.parseSourceCalls ∧
    (DefaultRunFunc env triggerReimport ls).2.trace.updateCalls =
      ls.trace.updateCalls ∧
    (DefaultRunFunc env triggerReimport ls).2.trace.readConfigFilesCalls =
      ls.trace.readConfigFilesCalls := by
  have htrace : (DefaultRunFunc env triggerReimport ls).2.trace = ls.trace := by
    rw [DefaultRunFunc]
    cases hst : ls.status with
    | none =>
      cases hsc : env.statusFromCluster with
      | error e => rfl
      | ok rstatus => exact runAfterInit_skip env _ h
    | some s => exact runAfterInit_skip env ls h
  exact ⟨by rw [htrace], by rw [htrace], by rw [htrace]⟩

/-- Witness for Claim C9: a concrete environment with rendering disabled and
a cached source directory equal to the fetched one; the run does zero parse,
apply, and read work. -/
theorem DefaultRunFunc_reimport_skip_witness :
    (DefaultRunFunc
      ⟨.ok ⟨none, none, none, 0⟩, str "c1", str "d1", [],
       ⟨str "repo", str "rev", str "main", str "d"⟩, .git,
       false, .missing, true, .notExist, .ok emptySourceState,
       [], [], none, none, none, none,
       false, [], [], false, [], [], none⟩
      triggerReimport
      ⟨some ⟨none, none, none, 0⟩,
       ⟨some ⟨none, str "c1", str "d1", []⟩, true, [], false⟩, 0, ⟨0, 0, 0⟩⟩).2.trace.parseSourceCalls = 0 ∧
    (DefaultRunFunc
      ⟨.ok ⟨none, none, none, 0⟩, str "c1", str "d1", [],
       ⟨str "repo", str "rev", str "main", str "d"⟩, .git,
       false, .missing, true, .notExist, .ok emptySourceState,
       [], [], none, none, none, none,
       false, [], [], false, [], [], none⟩
      triggerReimport
      ⟨some ⟨none, none, none, 0⟩,
       ⟨some ⟨none, str "c1", str "d1", []⟩, true, [], false⟩, 0, ⟨0, 0, 0⟩⟩).2.trace.updateCalls = 0 := by
  have h := DefaultRunFunc_reimport_skip
    ⟨.ok ⟨none, none, none, 0⟩, str "c1", str "d1", [],
     ⟨str "repo", str "rev", str "main", str "d"⟩, .git,
     false, .missing, true, .notExist, .ok emptySourceState,
     [], [], none, none, none, none,
     false, [], [], false, [], [], none⟩
    ⟨some ⟨none, none, none, 0⟩,
     ⟨some ⟨none, str "c1", str "d1", []⟩, true, [], false⟩, 0, ⟨0, 0, 0⟩⟩
    (by decide)
  exact ⟨h.1.trans rfl, h.2.1.trans rfl⟩

end ConfigSync
